import Mathlib

/-
Verification of the MyCon Learn flashcard application core
(answer normalization, hint generation, CSV vocabulary import,
answer checking, statistics aggregation) against its specification.

Strings are modelled as `List Char`.  Python's `str.lower` and
`unicodedata.normalize("NFC", ·)` are library functions outside the
repository; they are modelled as function parameters `lower` and `nfc`
wherever the verified property does not depend on their internals, and
the Unicode-standard facts they satisfy (idempotence of NFC, stability
of lowercased text) appear as explicit hypotheses where needed.
-/

namespace MyconLearn

abbrev Str := List Char

/-- Whitespace as recognised by Python's `str.strip`/`str.split`
(the ASCII whitespace characters; the additional Unicode space
characters play no role in any property proved here). -/
def isPyWs (c : Char) : Bool :=
  c = ' ' || c = '\t' || c = '\n' || c = '\x0d' || c = '\x0b' || c = '\x0c'

/-- Drop leading whitespace (the front half of Python `str.strip`). -/
def stripFront (s : Str) : Str := s.dropWhile isPyWs

/-- Drop trailing whitespace (the back half of Python `str.strip`). -/
def stripBack (s : Str) : Str := (s.reverse.dropWhile isPyWs).reverse

/-- Model of Python `str.strip()`: remove leading and trailing whitespace. -/
def strip (s : Str) : Str := stripBack (stripFront s)

/-- Model of `normalize_vietnamese` from `app/main.py`:
`text.strip().lower()` followed by `unicodedata.normalize("NFC", text)`.
`lower` and `nfc` stand for Python's `str.lower` and NFC composition. -/
def normalize (lower nfc : Str → Str) (s : Str) : Str :=
  nfc (lower (strip s))

/-- The `Card` model from `app/models.py` (the primary-key `id` is
managed by the storage layer and plays no role in the verified
operations, which act on an already-resolved card). -/
structure Card where
  vietnamese : Str
  english : Str
  category : Option Str
  difficulty_level : Int
  success_count : Nat
  fail_count : Nat
  last_reviewed : Option Nat
  mastered : Bool
deriving DecidableEq, Repr

/-- The `CheckResponse` schema from `app/schemas.py` (the optional
`attempts` field is never set by `check_answer` and is omitted). -/
structure CheckResponse where
  correct : Bool
  expected : Option Str
  user_input : Str
  diff : Option Str
deriving DecidableEq, Repr

/-- Model of the body of `check_answer` in `app/main.py` after the card
has been resolved.  Returns the updated card together with the response.
`now` models `datetime.utcnow()`. -/
def checkAnswer (lower nfc : Str → Str) (card : Card) (userInput : Str)
    (recordResult : Bool) (now : Nat) : Card × CheckResponse :=
  let userNormalized := normalize lower nfc userInput
  let vietNormalized := normalize lower nfc card.vietnamese
  let engNormalized := normalize lower nfc card.english
  let correctViet := userNormalized == vietNormalized
  let correctEng := userNormalized == engNormalized
  let correct := correctViet || correctEng
  let card' :=
    if recordResult || correct then
      { card with
        last_reviewed := some now
        success_count := if correct then card.success_count + 1 else card.success_count
        fail_count := if correct then card.fail_count else card.fail_count + 1 }
    else card
  let expected := if correct then
      some (if correctViet then card.vietnamese else card.english)
    else none
  (card', { correct := correct, expected := expected,
            user_input := userInput, diff := none })

/-- Aggregated statistics returned by `get_stats` in `app/main.py`. -/
structure Stats where
  total_cards : Nat
  total_attempts : Nat
  total_success : Nat
  total_fail : Nat
  accuracy : ℚ
deriving DecidableEq, Repr

/-- Round to the nearest integer, ties to even — the rounding used by
Python's builtin `round`. -/
def roundHalfEven (q : ℚ) : ℤ :=
  if Int.fract q = 1/2 then 2 * round (q / 2) else round q

/-- Round to one decimal place, modelling Python's `round(x, 1)`. -/
def round1 (q : ℚ) : ℚ := (roundHalfEven (q * 10) : ℚ) / 10

/-- Model of `get_stats` in `app/main.py`.  `SUM` over an empty table is
`NULL`, turned into `0` by the `or 0` in the source; over a list model
the sum of an empty list is directly `0`. -/
def getStats (cards : List Card) : Stats :=
  let total_success := (cards.map (fun c => c.success_count)).sum
  let total_fail := (cards.map (fun c => c.fail_count)).sum
  let total_attempts := total_success + total_fail
  { total_cards := cards.length
    total_attempts := total_attempts
    total_success := total_success
    total_fail := total_fail
    accuracy :=
      if 0 < total_attempts then
        round1 ((total_success : ℚ) / (total_attempts : ℚ) * 100)
      else 0 }

/-- Model of Python `str.split()` with no separator argument: split on
runs of whitespace, discarding empty strings.  `acc` accumulates the
current word in reverse. -/
def splitWsAux : Str → Str → List Str
  | acc, [] => if acc.isEmpty then [] else [acc.reverse]
  | acc, c :: rest =>
    if isPyWs c then
      if acc.isEmpty then splitWsAux [] rest
      else acc.reverse :: splitWsAux [] rest
    else splitWsAux (c :: acc) rest

def splitWs (s : Str) : List Str := splitWsAux [] s

inductive QuizMode where
  | engToViet
  | vietToEng
deriving DecidableEq, Repr

/-- Python `" ".join(...)`. -/
def joinSpace (ws : List Str) : Str := List.intercalate [' '] ws

/-- One word at hint level 2: `word[0] + "_" * (len(word) - 1)`.
`split()` never emits an empty word, so the `[]` case is unreachable in
`generateHint` (Python's `word[0]` would raise there). -/
def hintWord2 : Str → Str
  | [] => []
  | c :: rest => c :: rest.map (fun _ => '_')

/-- Model of `generate_hint` in `app/main.py`. -/
def generateHint (card : Card) (mode : QuizMode) (hintLevel : Int) : Str :=
  let answer := if mode = QuizMode.engToViet then card.vietnamese else card.english
  let words := splitWs answer
  if hintLevel = 1 then
    joinSpace (words.map (fun w => List.replicate w.length '_'))
  else if hintLevel = 2 then
    joinSpace (words.map hintWord2)
  else answer

/-- Model of the `get_hint` endpoint in `app/main.py`: the requested
level is clamped by `max(1, min(3, hint_level))` before hint
generation; returns the hint together with the clamped level. -/
def getHint (card : Card) (mode : QuizMode) (hintLevel : Int) : Str × Int :=
  let level := max 1 (min 3 hintLevel)
  (generateHint card mode level, level)

/-- One CSV data row as produced by `csv.DictReader` after header
normalization: each recognised column is either absent (`none`) or holds
the raw cell text. -/
structure Row where
  vietnamese : Option Str
  english : Option Str
  category : Option Str
  difficulty_level : Option Str
deriving DecidableEq, Repr

/-- A parsed vocabulary row (the dicts accumulated by `load_csv_file`). -/
structure ImportRecord where
  vietnamese : Str
  english : Str
  category : Option Str
  difficulty_level : Int
deriving DecidableEq, Repr

/-- Value of a non-empty all-digit string, `none` otherwise. -/
def digitsVal (ds : Str) : Option Nat :=
  if ds.isEmpty || !(ds.all Char.isDigit) then none
  else some (ds.foldl (fun acc c => acc * 10 + (c.toNat - '0'.toNat)) 0)

/-- Model of Python's builtin `int(·)` on decimal strings: surrounding
whitespace is allowed, then an optional sign and a non-empty digit
sequence; anything else raises `ValueError` (`none` here). -/
def parseIntPy (s : Str) : Option Int :=
  match strip s with
  | [] => none
  | '+' :: ds => (digitsVal ds).map Int.ofNat
  | '-' :: ds => (digitsVal ds).map (fun n => -(Int.ofNat n))
  | ds => (digitsVal ds).map Int.ofNat

/-- The difficulty coercion `int(row.get("difficulty_level", 1) or 1)`
from `load_csv_file`: an absent column (or `None` cell) and the empty
string are falsy and default to `1`; any other string goes through
`int(·)`, whose `ValueError` aborts the whole load.  The error value
carries the offending text. -/
def parseDifficulty (v : Option Str) : Except Str Int :=
  match v with
  | none => .ok 1
  | some s =>
    if s.isEmpty then .ok 1
    else
      match parseIntPy s with
      | some n => .ok n
      | none => .error s

/-- Model of `load_csv_file` in `app/vocab_loader.py`: rows whose
`vietnamese` or `english` is empty after trimming are skipped; a
difficulty that fails to parse aborts the load with the error. -/
def loadCsvFile : List Row → Except Str (List ImportRecord)
  | [] => .ok []
  | row :: rest =>
    let vietnamese := strip (row.vietnamese.getD [])
    let english := strip (row.english.getD [])
    if vietnamese.isEmpty || english.isEmpty then loadCsvFile rest
    else
      match parseDifficulty row.difficulty_level with
      | .error e => .error e
      | .ok d =>
        let category := strip (row.category.getD [])
        match loadCsvFile rest with
        | .error e => .error e
        | .ok recs =>
          .ok ({ vietnamese := vietnamese, english := english,
                 category := if category.isEmpty then none else some category,
                 difficulty_level := d } :: recs)

/-- `stem.replace("_", " ").replace("-", " ")` from `app/vocab_loader.py`. -/
def replaceSeps (s : Str) : Str :=
  s.map (fun c => if c = '_' || c = '-' then ' ' else c)

/-- Model of Python `str.title()`: the first letter of every maximal
letter run is uppercased, the rest lowercased (ASCII letters; the
vocabulary filenames contain only ASCII). -/
def titleMap (prevCased : Bool) : Str → Str
  | [] => []
  | c :: rest =>
    if c.isAlpha then
      (if prevCased then c.toLower else c.toUpper) :: titleMap true rest
    else c :: titleMap false rest

def title (s : Str) : Str := titleMap false s

/-- Topic display name from `get_available_topics`:
`csv_file.stem.replace("_", " ").replace("-", " ").title()`. -/
def displayName (stem : Str) : Str := title (replaceSeps stem)

/-- Default category from `load_topic_into_db`:
`filepath.stem.replace("_", " ").replace("-", " ")` — note, no `.title()`. -/
def defaultCategory (stem : Str) : Str := replaceSeps stem

/-- The `Card(...)` constructed by `load_topic_into_db` for one parsed
row (`data["category"] or default_category`; counters start at the
model defaults of `app/models.py`). -/
def mkCard (defaultCat : Str) (r : ImportRecord) : Card :=
  { vietnamese := r.vietnamese
    english := r.english
    category := some (r.category.getD defaultCat)
    difficulty_level := r.difficulty_level
    success_count := 0
    fail_count := 0
    last_reviewed := none
    mastered := false }

/-- The existence query of `load_topic_into_db`: is a card with this
exact `(vietnamese, english)` pair present? -/
def pairMem (db : List Card) (v e : Str) : Bool :=
  db.any (fun c => c.vietnamese == v && c.english == e)

/-- The insertion loop of `load_topic_into_db`.  The session is created
with `autoflush=False` (`app/database.py`), so the existence query sees
only the `committed` store — never the cards `db.add`ed earlier in the
same loop.  Returns the newly added cards (in row order) and the count. -/
def importRecords (defaultCat : Str) (committed : List Card) :
    List ImportRecord → List Card × Nat
  | [] => ([], 0)
  | r :: rest =>
    if pairMem committed r.vietnamese r.english then
      importRecords defaultCat committed rest
    else
      let (added, n) := importRecords defaultCat committed rest
      (mkCard defaultCat r :: added, n + 1)

/-- Model of `load_topic_into_db` (after the file-existence check):
when `clearExisting` is set, all cards are deleted and the deletion
committed *before* the CSV is parsed; a parse error then leaves the
store cleared.  Returns the resulting store and the count (or error). -/
def loadTopicIntoDb (stem : Str) (rows : List Row) (db : List Card)
    (clearExisting : Bool) : List Card × Except Str Nat :=
  let committed := if clearExisting then [] else db
  match loadCsvFile rows with
  | .error e => (committed, .error e)
  | .ok recs =>
    let (added, n) := importRecords (defaultCategory stem) committed recs
    (committed ++ added, .ok n)

/-- Does the store contain two cards with the same
`(vietnamese, english)` pair? -/
def hasDupPair : List Card → Bool
  | [] => false
  | c :: rest => pairMem rest c.vietnamese c.english || hasDupPair rest

/-- A row survives the skip test of `load_csv_file`: both `vietnamese`
and `english` are non-empty after trimming. -/
def notSkipped (row : Row) : Bool :=
  !((strip (row.vietnamese.getD [])).isEmpty || (strip (row.english.getD [])).isEmpty)

lemma stripFront_idem (s : Str) : stripFront (stripFront s) = stripFront s :=
  List.dropWhile_idempotent isPyWs s

lemma stripBack_eq_rdropWhile (s : Str) : stripBack s = s.rdropWhile isPyWs := rfl

lemma stripBack_idem (s : Str) : stripBack (stripBack s) = stripBack s := by
  simpa [stripBack_eq_rdropWhile] using List.rdropWhile_idempotent isPyWs s

lemma stripFront_stripBack (s : Str) (h : stripFront s = s) :
    stripFront (stripBack s) = stripBack s := by
  cases s with
  | nil => simp [stripBack, stripFront]
  | cons c t =>
    have hc : isPyWs c = false := by
      rcases Bool.eq_false_or_eq_true (isPyWs c) with hc | hc
      · exfalso
        have hlen := congrArg List.length h
        rw [stripFront, List.dropWhile_cons_of_pos hc] at hlen
        have hle : (List.dropWhile isPyWs t).length ≤ t.length :=
          (List.dropWhile_suffix (l := t) isPyWs).sublist.length_le
        simp only [List.length_cons] at hlen
        omega
      · exact hc
    have hc' : ¬ isPyWs c = true := by simp [hc]
    unfold stripBack
    rw [List.reverse_cons, List.dropWhile_append]
    rcases hdt : t.reverse.dropWhile isPyWs with _ | ⟨d, ds⟩
    · simp [stripFront, List.dropWhile_cons_of_neg hc', hc]
    · simp [stripFront, List.reverse_append, List.dropWhile_cons_of_neg hc']

lemma strip_idem (s : Str) : strip (strip s) = strip s := by
  unfold strip
  rw [stripFront_stripBack (stripFront s) (stripFront_idem s), stripBack_idem]

/-- Strings already stripped stay fixed by `strip`. -/
lemma strip_of_stripped (s : Str) (h : strip s = s) : strip s = s := h

lemma pairMem_append (db1 db2 : List Card) (v e : Str) :
    pairMem (db1 ++ db2) v e = (pairMem db1 v e || pairMem db2 v e) := by
  simp [pairMem, List.any_append]

lemma pairMem_cons (c : Card) (l : List Card) (v e : Str) :
    pairMem (c :: l) v e = ((c.vietnamese == v && c.english == e) || pairMem l v e) := by
  simp [pairMem]

lemma importRecords_skip_eq (dc : Str) (committed : List Card)
    (r : ImportRecord) (rest : List ImportRecord)
    (hq : pairMem committed r.vietnamese r.english = true) :
    importRecords dc committed (r :: rest) = importRecords dc committed rest := by
  simp [importRecords, hq]

lemma importRecords_add_eq (dc : Str) (committed : List Card)
    (r : ImportRecord) (rest : List ImportRecord)
    (hq : pairMem committed r.vietnamese r.english = false) :
    importRecords dc committed (r :: rest) =
      (mkCard dc r :: (importRecords dc committed rest).1,
       (importRecords dc committed rest).2 + 1) := by
  simp [importRecords, hq]

lemma importRecords_all_skip (dc : Str) (committed : List Card)
    (recs : List ImportRecord)
    (h : ∀ r ∈ recs, pairMem committed r.vietnamese r.english = true) :
    importRecords dc committed recs = ([], 0) := by
  induction recs with
  | nil => rfl
  | cons r rest ih =>
    have hr := h r (by simp)
    rw [importRecords_skip_eq dc committed r rest hr]
    exact ih (fun r' hr' => h r' (by simp [hr']))

lemma importRecords_covers (dc : Str) (committed : List Card)
    (recs : List ImportRecord) :
    ∀ r ∈ recs,
      pairMem (committed ++ (importRecords dc committed recs).1)
        r.vietnamese r.english = true := by
  induction recs with
  | nil => intro r hr; simp at hr
  | cons q rest ih =>
    intro r hr
    rcases List.mem_cons.mp hr with rfl | hr'
    · cases hq : pairMem committed r.vietnamese r.english with
      | true => simp [pairMem_append, hq]
      | false =>
        rw [importRecords_add_eq dc committed r rest hq]
        simp [pairMem_append, pairMem_cons, mkCard]
    · have hrec := ih r hr'
      cases hq : pairMem committed q.vietnamese q.english with
      | true =>
        rw [importRecords_skip_eq dc committed q rest hq]
        exact hrec
      | false =>
        rw [importRecords_add_eq dc committed q rest hq]
        rw [pairMem_append] at hrec ⊢
        rw [pairMem_cons]
        rcases Bool.or_eq_true_iff.mp hrec with h1 | h2
        · simp [h1]
        · simp [h2]

lemma importRecords_nil_committed (dc : Str) (recs : List ImportRecord) :
    importRecords dc [] recs = (recs.map (mkCard dc), recs.length) := by
  induction recs with
  | nil => rfl
  | cons r rest ih =>
    have hq : pairMem [] r.vietnamese r.english = false := by simp [pairMem]
    rw [importRecords_add_eq dc [] r rest hq, ih]
    simp

lemma importRecords_added_fresh (dc : Str) (committed : List Card)
    (recs : List ImportRecord) :
    ∀ c ∈ (importRecords dc committed recs).1,
      pairMem committed c.vietnamese c.english = false := by
  induction recs with
  | nil => intro c hc; simp [importRecords] at hc
  | cons r rest ih =>
    intro c hc
    cases hq : pairMem committed r.vietnamese r.english with
    | true =>
      rw [importRecords_skip_eq dc committed r rest hq] at hc
      exact ih c hc
    | false =>
      rw [importRecords_add_eq dc committed r rest hq] at hc
      rcases List.mem_cons.mp hc with rfl | hc'
      · simpa [mkCard] using hq
      · exact ih c hc'

lemma loadCsvFile_skip_eq (row : Row) (rest : List Row)
    (hc : ((strip (row.vietnamese.getD [])).isEmpty ||
           (strip (row.english.getD [])).isEmpty) = true) :
    loadCsvFile (row :: rest) = loadCsvFile rest := by
  simp [loadCsvFile, hc]

lemma loadCsvFile_length (rows : List Row) (recs : List ImportRecord)
    (h : loadCsvFile rows = Except.ok recs) :
    recs.length = (rows.filter notSkipped).length := by
  induction rows generalizing recs with
  | nil =>
    simp only [loadCsvFile] at h
    cases h
    simp
  | cons row rest ih =>
    cases hc : ((strip (row.vietnamese.getD [])).isEmpty ||
                (strip (row.english.getD [])).isEmpty) with
    | true =>
      rw [loadCsvFile_skip_eq row rest hc] at h
      have hns : notSkipped row = false := by simp [notSkipped, hc]
      simp [List.filter_cons, hns]
      exact ih recs h
    | false =>
      simp only [loadCsvFile, hc, Bool.false_eq_true, if_false] at h
      cases hd : parseDifficulty row.difficulty_level with
      | error e => rw [hd] at h; simp at h
      | ok d =>
        rw [hd] at h
        cases hr : loadCsvFile rest with
        | error e => rw [hr] at h; simp at h
        | ok recs' =>
          rw [hr] at h
          simp only [Except.ok.injEq] at h
          have hns : notSkipped row = true := by simp [notSkipped, hc]
          have := ih recs' hr
          simp [List.filter_cons, hns, ← h, this]


lemma splitWsAux_no_empty (s acc : Str) :
    ((splitWsAux acc s).all (fun w => !w.isEmpty)) = true := by
  induction s generalizing acc with
  | nil =>
    cases h : acc.isEmpty with
    | true => simp [splitWsAux, h]
    | false =>
      simp [splitWsAux, h]
      exact fun hacc => by simp [hacc] at h
  | cons c rest ih =>
    cases hw : isPyWs c with
    | true =>
      cases h : acc.isEmpty with
      | true => simpa [splitWsAux, hw, h] using ih []
      | false =>
        simp [splitWsAux, hw, h, ih []]
        exact fun hacc => by simp [hacc] at h
    | false => simpa [splitWsAux, hw] using ih (c :: acc)

/-- Claim C1: `check_answer` reports correct exactly when the normalized
answer equals the normalized Vietnamese or English phrase; `expected` is
the matched phrase when correct (Vietnamese taking precedence) and
`None` when incorrect; and the original un-normalized input is echoed. -/
theorem checkAnswer_response_spec (lower nfc : Str → Str) (card : Card)
    (input : Str) (recordResult : Bool) (now : Nat) :
    (checkAnswer lower nfc card input recordResult now).2.correct =
      (normalize lower nfc input == normalize lower nfc card.vietnamese ||
       normalize lower nfc input == normalize lower nfc card.english) ∧
    (checkAnswer lower nfc card input recordResult now).2.expected =
      (if normalize lower nfc input == normalize lower nfc card.vietnamese then
        some card.vietnamese
      else if normalize lower nfc input == normalize lower nfc card.english then
        some card.english
      else none) ∧
    (checkAnswer lower nfc card input recordResult now).2.user_input = input := by
  refine ⟨rfl, ?_, rfl⟩
  cases hv : (normalize lower nfc input == normalize lower nfc card.vietnamese) with
  | true => simp [checkAnswer, hv]
  | false =>
    cases he : (normalize lower nfc input == normalize lower nfc card.english) with
    | true => simp [checkAnswer, hv, he]
    | false => simp [checkAnswer, hv, he]

/-- Claim C3: an incorrect answer with `record_result=False` leaves the
card entirely unchanged (so statistics show no additional attempt),
while the same call with `record_result=True` increments `fail_count`
by exactly one and sets `last_reviewed`, leaving `success_count`
untouched. -/
theorem checkAnswer_incorrect_frame (lower nfc : Str → Str) (card : Card)
    (input : Str) (now : Nat)
    (hv : normalize lower nfc input ≠ normalize lower nfc card.vietnamese)
    (he : normalize lower nfc input ≠ normalize lower nfc card.english) :
    (checkAnswer lower nfc card input false now).1 = card ∧
    (∀ rest : List Card,
      getStats ((checkAnswer lower nfc card input false now).1 :: rest) =
        getStats (card :: rest)) ∧
    (checkAnswer lower nfc card input true now).1 =
      { card with fail_count := card.fail_count + 1, last_reviewed := some now } := by
  have hv' : (normalize lower nfc input == normalize lower nfc card.vietnamese) = false :=
    beq_eq_false_iff_ne.mpr hv
  have he' : (normalize lower nfc input == normalize lower nfc card.english) = false :=
    beq_eq_false_iff_ne.mpr he
  have hframe : (checkAnswer lower nfc card input false now).1 = card := by
    simp [checkAnswer, hv', he']
  refine ⟨hframe, fun rest => by rw [hframe], ?_⟩
  simp [checkAnswer, hv', he']

/-- Witness for C3 at a concrete card and wrong answer. -/
theorem checkAnswer_incorrect_frame_witness :
    (normalize id id "wrong".toList ≠ normalize id id "xin chào".toList) ∧
    (normalize id id "wrong".toList ≠ normalize id id "hello".toList) ∧
    ((checkAnswer id id ⟨"xin chào".toList, "hello".toList, none, 1, 2, 3, none, false⟩
        "wrong".toList false 7).1 =
      ⟨"xin chào".toList, "hello".toList, none, 1, 2, 3, none, false⟩ ∧
    (∀ rest : List Card,
      getStats ((checkAnswer id id
          ⟨"xin chào".toList, "hello".toList, none, 1, 2, 3, none, false⟩
          "wrong".toList false 7).1 :: rest) =
        getStats (⟨"xin chào".toList, "hello".toList, none, 1, 2, 3, none, false⟩ :: rest)) ∧
    (checkAnswer id id ⟨"xin chào".toList, "hello".toList, none, 1, 2, 3, none, false⟩
        "wrong".toList true 7).1 =
      ⟨"xin chào".toList, "hello".toList, none, 1, 2, 4, some 7, false⟩) :=
  ⟨by decide, by decide,
    checkAnswer_incorrect_frame id id
      ⟨"xin chào".toList, "hello".toList, none, 1, 2, 3, none, false⟩
      "wrong".toList 7 (by decide) (by decide)⟩

/-- Counterexample to claim C5: the hint generator does NOT emit an
empty segment for consecutive whitespace separators.  For the phrase
`"a  b"` (two spaces) at level 1 the code produces `"_ _"` — Python's
`split()` collapses the run of separators and yields no zero-length
word — whereas the claimed empty segment would give `"_  _"`. -/
theorem hint_empty_segment_cex :
    generateHint ⟨"a  b".toList, "x".toList, none, 1, 0, 0, none, false⟩
        QuizMode.engToViet 1 = "_ _".toList ∧
    splitWs "a  b".toList = ["a".toList, "b".toList] ∧
    "_ _".toList ≠ "_  _".toList := by
  decide

/-- Claim C5 (amended): consecutive whitespace separators are collapsed
— the word splitter never produces a zero-length word, so no empty
segment appears in any hint; concretely, the level-1 hint for
`"a  b"` is `"_ _"`. -/
theorem split_collapses_separators (s : Str) :
    ((splitWs s).all (fun w => !w.isEmpty)) = true ∧
    generateHint ⟨"a  b".toList, "x".toList, none, 1, 0, 0, none, false⟩
        QuizMode.engToViet 1 = "_ _".toList := by
  exact ⟨splitWsAux_no_empty s [], by decide⟩

/-- Claim C6: the hint endpoint clamps the requested level into `[1,3]`;
level 1 masks every character of every word with an underscore, level 2
reveals each word's first character, level 3 returns the answer
verbatim; in particular `hint("xin chào", 1) = "___ ____"`,
`hint("xin chào", 2) = "x__ c___"`, `hint("xin chào", 3) = "xin chào"`. -/
theorem hint_spec (card : Card) (mode : QuizMode) (level : Int) :
    (1 ≤ (getHint card mode level).2 ∧ (getHint card mode level).2 ≤ 3) ∧
    (getHint card mode level).1 = generateHint card mode (max 1 (min 3 level)) ∧
    generateHint card mode 1 =
      joinSpace ((splitWs (if mode = QuizMode.engToViet then card.vietnamese
          else card.english)).map (fun w => List.replicate w.length '_')) ∧
    generateHint card mode 2 =
      joinSpace ((splitWs (if mode = QuizMode.engToViet then card.vietnamese
          else card.english)).map hintWord2) ∧
    generateHint card mode 3 =
      (if mode = QuizMode.engToViet then card.vietnamese else card.english) ∧
    getHint ⟨"xin chào".toList, "hello".toList, some "greetings".toList,
        1, 0, 0, none, false⟩ QuizMode.engToViet 1 = ("___ ____".toList, 1) ∧
    getHint ⟨"xin chào".toList, "hello".toList, some "greetings".toList,
        1, 0, 0, none, false⟩ QuizMode.engToViet 2 = ("x__ c___".toList, 2) ∧
    getHint ⟨"xin chào".toList, "hello".toList, some "greetings".toList,
        1, 0, 0, none, false⟩ QuizMode.engToViet 3 = ("xin chào".toList, 3) := by
  refine ⟨⟨le_max_left 1 _, max_le (by norm_num) (min_le_left 3 level)⟩,
    rfl, rfl, rfl, rfl, by decide, by decide, by decide⟩

/-- Claim C7: `normalize_vietnamese` (trim, lowercase, Unicode NFC) is
idempotent.  `lower` and `nfc` model Python's `str.lower` and NFC; the
hypotheses are the Unicode-standard facts the proof rests on: neither
function introduces leading/trailing whitespace on trimmed input,
lowercasing is stable on an already-lowercased-and-composed string, and
NFC is idempotent. -/
theorem normalize_idempotent (lower nfc : Str → Str)
    (hlower : ∀ t, strip t = t → strip (lower t) = lower t)
    (hnfc : ∀ t, strip t = t → strip (nfc t) = nfc t)
    (hlower_nfc : ∀ t, lower (nfc (lower t)) = nfc (lower t))
    (hnfc_idem : ∀ t, nfc (nfc t) = nfc t)
    (s : Str) :
    normalize lower nfc (normalize lower nfc s) = normalize lower nfc s := by
  unfold normalize
  rw [hnfc _ (hlower _ (strip_idem s)), hlower_nfc, hnfc_idem]

/-- Witness for C7: concrete instantiation (identity `lower`/`nfc`,
which satisfy all four hypotheses) at a string needing trimming. -/
theorem normalize_idempotent_witness :
    normalize id id (normalize id id "  Xin Chao  ".toList) =
      normalize id id "  Xin Chao  ".toList :=
  normalize_idempotent id id (fun _ h => h) (fun _ h => h)
    (fun _ => rfl) (fun _ => rfl) "  Xin Chao  ".toList

/-- Claim C9: statistics report the card count, the two counter sums,
total attempts as their sum, and accuracy as success over attempts as a
percentage rounded to one decimal place — `0` when there are no
attempts, so the empty store yields all zeros with no division. -/
theorem getStats_spec (cards : List Card) :
    (getStats cards).total_cards = cards.length ∧
    (getStats cards).total_success = (cards.map (fun c => c.success_count)).sum ∧
    (getStats cards).total_fail = (cards.map (fun c => c.fail_count)).sum ∧
    (getStats cards).total_attempts =
      (getStats cards).total_success + (getStats cards).total_fail ∧
    (getStats cards).accuracy =
      (if 0 < (getStats cards).total_attempts then
        round1 (((getStats cards).total_success : ℚ) /
          ((getStats cards).total_attempts : ℚ) * 100)
      else 0) ∧
    getStats [] = ⟨0, 0, 0, 0, 0⟩ :=
  ⟨rfl, rfl, rfl, rfl, rfl, rfl⟩

/-- Claim C10: with `clear_existing=True` the deletion is committed
before the CSV is parsed, so a parse failure leaves the store empty —
the clear-and-import is not atomic and the deletion is not rolled back. -/
theorem loadTopic_clear_before_parse (stem : Str) (rows : List Row)
    (db : List Card) (e : Str) (h : loadCsvFile rows = Except.error e) :
    loadTopicIntoDb stem rows db true = ([], Except.error e) := by
  simp [loadTopicIntoDb, h]

/-- Witness for C10: a non-numeric `difficulty_level` aborts the parse
and the previously non-empty store ends up empty. -/
theorem loadTopic_clear_before_parse_witness :
    loadCsvFile [(⟨some "a".toList, some "b".toList, none, some "abc".toList⟩ : Row)] =
      Except.error "abc".toList ∧
    loadTopicIntoDb "topic".toList
      [⟨some "a".toList, some "b".toList, none, some "abc".toList⟩]
      [⟨"x".toList, "y".toList, none, 1, 0, 0, none, false⟩] true
      = ([], Except.error "abc".toList) :=
  ⟨rfl, loadTopic_clear_before_parse "topic".toList
    [⟨some "a".toList, some "b".toList, none, some "abc".toList⟩]
    [⟨"x".toList, "y".toList, none, 1, 0, 0, none, false⟩]
    "abc".toList rfl⟩

lemma notSkipped_cond (row : Row) (h : notSkipped row = true) :
    ((strip (row.vietnamese.getD [])).isEmpty ||
     (strip (row.english.getD [])).isEmpty) = false := by
  cases hx : ((strip (row.vietnamese.getD [])).isEmpty ||
              (strip (row.english.getD [])).isEmpty) with
  | false => rfl
  | true => simp only [notSkipped, hx] at h; simp at h

lemma loadCsvFile_error_of_bad_row (rows : List Row) (rowE : Row) (dE : Str)
    (hmem : rowE ∈ rows) (hnsE : notSkipped rowE = true)
    (hdE : rowE.difficulty_level = some dE) (hne : dE ≠ [])
    (hbad : parseIntPy dE = none) :
    ∃ e, loadCsvFile rows = Except.error e := by
  induction rows with
  | nil => simp at hmem
  | cons row rest ih =>
    rcases List.mem_cons.mp hmem with rfl | hmem'
    · have hc := notSkipped_cond rowE hnsE
      have hde : dE.isEmpty = false := by
        cases dE with
        | nil => exact absurd rfl hne
        | cons c t => rfl
      have hpe : parseDifficulty rowE.difficulty_level = Except.error dE := by
        simp [parseDifficulty, hdE, hde, hbad]
      exact ⟨dE, by simp [loadCsvFile, hc, hpe]⟩
    · rcases ih hmem' with ⟨e, he⟩
      cases hc : ((strip (row.vietnamese.getD [])).isEmpty ||
                  (strip (row.english.getD [])).isEmpty) with
      | true => exact ⟨e, by rw [loadCsvFile_skip_eq row rest hc]; exact he⟩
      | false =>
        cases hd : parseDifficulty row.difficulty_level with
        | error e' => exact ⟨e', by simp [loadCsvFile, hc, hd]⟩
        | ok d => exact ⟨e, by simp [loadCsvFile, hc, hd, he]⟩

/-- Claim C4: an absent or empty `difficulty_level` defaults to 1 on the
created card, while a non-parseable value makes the import of the whole
source fail with a propagated error — no per-row skip, no silent
default, and (with `clear_existing=False`) no card inserted. -/
theorem difficulty_default_or_error (stem : Str) (rowD rowE : Row)
    (dE : Str) (rows : List Row) (db : List Card)
    (hnsD : notSkipped rowD = true)
    (hdD : rowD.difficulty_level = none ∨ rowD.difficulty_level = some [])
    (hnsE : notSkipped rowE = true)
    (hmem : rowE ∈ rows)
    (hdE : rowE.difficulty_level = some dE)
    (hne : dE ≠ [])
    (hbad : parseIntPy dE = none) :
    (∃ c, (loadTopicIntoDb stem [rowD] [] false).1 = [c] ∧
      c.difficulty_level = 1) ∧
    (∃ e, (loadTopicIntoDb stem rows db false).2 = Except.error e) ∧
    (loadTopicIntoDb stem rows db false).1 = db := by
  have hcD := notSkipped_cond rowD hnsD
  have hpd : parseDifficulty rowD.difficulty_level = Except.ok 1 := by
    rcases hdD with h | h <;> simp [parseDifficulty, h]
  have hok : loadCsvFile [rowD] = Except.ok
      [{ vietnamese := strip (rowD.vietnamese.getD []),
         english := strip (rowD.english.getD []),
         category := if (strip (rowD.category.getD [])).isEmpty then none
                     else some (strip (rowD.category.getD [])),
         difficulty_level := 1 }] := by
    simp [loadCsvFile, hcD, hpd]
  rcases loadCsvFile_error_of_bad_row rows rowE dE hmem hnsE hdE hne hbad with ⟨e, he⟩
  refine ⟨⟨mkCard (defaultCategory stem)
      { vietnamese := strip (rowD.vietnamese.getD []),
        english := strip (rowD.english.getD []),
        category := if (strip (rowD.category.getD [])).isEmpty then none
                    else some (strip (rowD.category.getD [])),
        difficulty_level := 1 }, ?_, rfl⟩, ⟨e, ?_⟩, ?_⟩
  · simp [loadTopicIntoDb, hok, importRecords, pairMem]
  · simp [loadTopicIntoDb, he]
  · simp [loadTopicIntoDb, he]

/-- Witness for C4 at concrete rows: difficulty column absent defaults
to 1; the non-numeric value "abc" fails the whole import. -/
theorem difficulty_default_or_error_witness :
    notSkipped ⟨some "a".toList, some "b".toList, none, none⟩ = true ∧
    notSkipped ⟨some "c".toList, some "d".toList, none, some "abc".toList⟩ = true ∧
    parseIntPy "abc".toList = none ∧
    ((∃ c, (loadTopicIntoDb "t".toList
        [⟨some "a".toList, some "b".toList, none, none⟩] [] false).1 = [c] ∧
      c.difficulty_level = 1) ∧
    (∃ e, (loadTopicIntoDb "t".toList
        [⟨some "c".toList, some "d".toList, none, some "abc".toList⟩]
        [⟨"x".toList, "y".toList, none, 1, 0, 0, none, false⟩] false).2 =
      Except.error e) ∧
    (loadTopicIntoDb "t".toList
        [⟨some "c".toList, some "d".toList, none, some "abc".toList⟩]
        [⟨"x".toList, "y".toList, none, 1, 0, 0, none, false⟩] false).1 =
      [⟨"x".toList, "y".toList, none, 1, 0, 0, none, false⟩]) :=
  ⟨by decide, by decide, by decide,
    difficulty_default_or_error "t".toList
      ⟨some "a".toList, some "b".toList, none, none⟩
      ⟨some "c".toList, some "d".toList, none, some "abc".toList⟩
      "abc".toList
      [⟨some "c".toList, some "d".toList, none, some "abc".toList⟩]
      [⟨"x".toList, "y".toList, none, 1, 0, 0, none, false⟩]
      (by decide) (by decide) (by decide) (by decide) (by decide)
      (by decide) (by decide)⟩

/-- Counterexample to claim C8: the default category is NOT the topic
display name.  For the source stem `common_words` the created card's
category is `"common words"` (separators replaced only), while the
display name produced by the topic listing is `"Common Words"`
(additionally title-cased). -/
theorem category_displayName_cex :
    ((loadTopicIntoDb "common_words".toList
        [⟨some "a".toList, some "b".toList, none, none⟩] [] false).1.map
      (fun c => c.category)) = [some "common words".toList] ∧
    displayName "common_words".toList = "Common Words".toList ∧
    ("common words".toList : Str) ≠ "Common Words".toList := by
  decide

/-- Claim C8 (amended): a row whose category is absent or empty after
trimming yields a card whose category is the filename stem with
underscores and hyphens replaced by spaces (`defaultCategory`), which is
not title-cased and therefore differs from the topic display name. -/
theorem category_default_spec (stem : Str) (row : Row) (d : Int)
    (hns : notSkipped row = true)
    (hcat : strip (row.category.getD []) = [])
    (hd : parseDifficulty row.difficulty_level = Except.ok d) :
    ∃ c, (loadTopicIntoDb stem [row] [] false).1 = [c] ∧
      c.category = some (defaultCategory stem) := by
  have hc := notSkipped_cond row hns
  have hok : loadCsvFile [row] = Except.ok
      [{ vietnamese := strip (row.vietnamese.getD []),
         english := strip (row.english.getD []),
         category := none, difficulty_level := d }] := by
    simp [loadCsvFile, hc, hd, hcat]
  refine ⟨mkCard (defaultCategory stem)
      { vietnamese := strip (row.vietnamese.getD []),
        english := strip (row.english.getD []),
        category := none, difficulty_level := d }, ?_, rfl⟩
  simp [loadTopicIntoDb, hok, importRecords, pairMem]

/-- Witness for C8 (amended) at the stem `common_words`. -/
theorem category_default_spec_witness :
    notSkipped ⟨some "a".toList, some "b".toList, none, none⟩ = true ∧
    strip ((none : Option Str).getD []) = [] ∧
    parseDifficulty none = Except.ok 1 ∧
    (∃ c, (loadTopicIntoDb "common_words".toList
        [⟨some "a".toList, some "b".toList, none, none⟩] [] false).1 = [c] ∧
      c.category = some (defaultCategory "common_words".toList)) :=
  ⟨by decide, rfl, rfl,
    category_default_spec "common_words".toList
      ⟨some "a".toList, some "b".toList, none, none⟩ 1
      (by decide) rfl rfl⟩

/-- Counterexample to claim C2: with `autoflush=False` the dedup query
never sees the import's own pending inserts, so a source containing the
same `(vietnamese, english)` pair twice creates two identical-pair
cards in a single import — the store ends up violating the claimed
dedup invariant (and the reported count is 2, not 1). -/
theorem import_duplicate_pair_cex :
    hasDupPair ([] : List Card) = false ∧
    (loadTopicIntoDb "t".toList
      [⟨some "a".toList, some "b".toList, none, none⟩,
       ⟨some "a".toList, some "b".toList, none, none⟩] [] false).2 = Except.ok 2 ∧
    hasDupPair (loadTopicIntoDb "t".toList
      [⟨some "a".toList, some "b".toList, none, none⟩,
       ⟨some "a".toList, some "b".toList, none, none⟩] [] false).1 = true :=
  ⟨rfl, rfl, rfl⟩

/-- Claim C2 (amended): importing the same parsed source a second time
inserts 0 new cards; a first import into an empty store inserts exactly
the row count minus the rows skipped for empty `vietnamese`/`english`
(rows duplicated inside the source are each inserted and counted); and
an import never creates a card whose pair was already present in the
store when the import began — the dedup check compares against the
pre-import store only, not the import's own pending inserts. -/
theorem import_dedup_amended (stem : Str) (rows : List Row) (db : List Card)
    (recs : List ImportRecord) (h : loadCsvFile rows = Except.ok recs) :
    (loadTopicIntoDb stem rows ((loadTopicIntoDb stem rows db false).1) false).2 =
      Except.ok 0 ∧
    (loadTopicIntoDb stem rows [] false).2 =
      Except.ok ((rows.filter notSkipped).length) ∧
    (∃ added, (loadTopicIntoDb stem rows db false).1 = db ++ added ∧
      ∀ c ∈ added, pairMem db c.vietnamese c.english = false) := by
  have h1 : (loadTopicIntoDb stem rows db false).1 =
      db ++ (importRecords (defaultCategory stem) db recs).1 := by
    simp [loadTopicIntoDb, h]
  refine ⟨?_, ?_, ?_⟩
  · have hskip : importRecords (defaultCategory stem)
        (db ++ (importRecords (defaultCategory stem) db recs).1) recs = ([], 0) :=
      importRecords_all_skip _ _ _
        (fun r hr => importRecords_covers (defaultCategory stem) db recs r hr)
    rw [h1]
    simp [loadTopicIntoDb, h, hskip]
  · simp [loadTopicIntoDb, h, importRecords_nil_committed,
      loadCsvFile_length rows recs h]
  · exact ⟨(importRecords (defaultCategory stem) db recs).1, h1,
      importRecords_added_fresh _ _ _⟩

/-- Witness for C2 (amended) at a concrete one-row source. -/
theorem import_dedup_amended_witness :
    loadCsvFile [(⟨some "a".toList, some "b".toList, none, none⟩ : Row)] =
      Except.ok [⟨"a".toList, "b".toList, none, 1⟩] ∧
    ((loadTopicIntoDb "t".toList
        [⟨some "a".toList, some "b".toList, none, none⟩]
        ((loadTopicIntoDb "t".toList
          [⟨some "a".toList, some "b".toList, none, none⟩] [] false).1) false).2 =
      Except.ok 0 ∧
    (loadTopicIntoDb "t".toList
        [⟨some "a".toList, some "b".toList, none, none⟩] [] false).2 =
      Except.ok (([(⟨some "a".toList, some "b".toList, none, none⟩ : Row)].filter
        notSkipped).length) ∧
    (∃ added, (loadTopicIntoDb "t".toList
        [⟨some "a".toList, some "b".toList, none, none⟩] [] false).1 = [] ++ added ∧
      ∀ c ∈ added, pairMem [] c.vietnamese c.english = false)) :=
  ⟨rfl, import_dedup_amended "t".toList
    [⟨some "a".toList, some "b".toList, none, none⟩] []
    [⟨"a".toList, "b".toList, none, 1⟩] rfl⟩

end MyconLearn
